import Mathlib

/-!
Verification of the "Remember This" data pipeline (fetch-remember-this script):
per-game context extraction, the three rule-based classifiers (player moments,
team weirdness, trauma), the season-scoped running-average store, and the
dedupe / quality-cap / date-sort corpus curator.

JavaScript numbers are modelled as exact rationals (`ℚ`); the script only ever
performs decimal parsing, comparisons, additions and divisions on values far
inside the exactly-representable range, so no floating-point artifact is load
bearing.  `Infinity` (the no-clock sentinel of `parseClockToSeconds`) is
modelled as `none : Option ℚ`.  JSON objects are modelled as structures whose
fields carry the defaults the script applies with `|| …` chains.
-/

set_option allowUnsafeReducibility true in
attribute [semireducible] Rat.mul Rat.add Rat.sub Rat.inv Rat.ofScientific

namespace TalkingPacers

/-- JavaScript `Math.round`: round half toward `+∞`. -/
def jsRound (q : ℚ) : ℤ := ⌊q + 1/2⌋

/-- Numeric value of a list of decimal digit characters. -/
def natOfDigits (l : List Char) : ℕ := l.foldl (fun n c => 10 * n + (c.toNat - 48)) 0

/-- Value of a fractional digit string: `fracOfDigits ['2','5'] = 0.25`. -/
def fracOfDigits (l : List Char) : ℚ := (natOfDigits l : ℚ) / ((10 : ℚ) ^ l.length)

/-- Split a character list into its leading digit run and the remainder. -/
def takeDigits (l : List Char) : List Char × List Char :=
  (l.takeWhile Char.isDigit, l.dropWhile Char.isDigit)

/-- Left-pad the decimal representation of `m` with zeros to `k` digits. -/
def padZeros (k : ℕ) (m : ℕ) : String :=
  let s := toString m
  if s.length < k then String.mk (List.replicate (k - s.length) '0') ++ s else s

/-- Smallest `k ≤ 30` with `den ∣ 10 ^ k`, used to print exact decimals. -/
def pow10exp (den : ℕ) : Option ℕ := (List.range 31).find? (fun k => 10 ^ k % den = 0)

/-- Decimal rendering of a nonnegative rational, as JavaScript prints the
numbers this script produces (which all have decimal denominators). -/
def ratToStrNonneg (q : ℚ) : String :=
  if q.den = 1 then toString q.num.toNat
  else
    match pow10exp q.den with
    | some k =>
      let n := q.num.toNat * 10 ^ k / q.den
      toString (n / 10 ^ k) ++ "." ++ padZeros k (n % 10 ^ k)
    | none => toString q.num.toNat ++ "/" ++ toString q.den

/-- JavaScript template-literal rendering `${x}` of a script-produced number. -/
def ratToStr (q : ℚ) : String :=
  if q < 0 then "-" ++ ratToStrNonneg (-q) else ratToStrNonneg q

/-- JavaScript `Number.prototype.toFixed(1)`: nearest tenth, ties away from
the smaller value. -/
def toFixed1 (q : ℚ) : String :=
  let n : ℤ := jsRound (q * 10)
  let a := n.natAbs
  (if n < 0 then "-" else "") ++ toString (a / 10) ++ "." ++ toString (a % 10)

/-- JavaScript `String.prototype.trim`. -/
def jsTrim (s : String) : String :=
  String.mk (((s.toList.dropWhile Char.isWhitespace).reverse.dropWhile Char.isWhitespace).reverse)

/-- JavaScript `String.prototype.toUpperCase` (character-wise, ASCII). -/
def jsToUpper (s : String) : String := String.mk (s.toList.map Char.toUpper)

/-- JavaScript `String.prototype.toLowerCase` (character-wise, ASCII). -/
def jsToLower (s : String) : String := String.mk (s.toList.map Char.toLower)

/-- JavaScript `String.prototype.slice(0, n)`. -/
def strTake (s : String) (n : ℕ) : String := String.mk (s.toList.take n)

/-- Lexicographic code-point comparison, as `localeCompare` orders the plain
ASCII date strings this script sorts. -/
def charListLe : List Char → List Char → Bool
  | [], _ => true
  | _ :: _, [] => false
  | a :: as, b :: bs => if a = b then charListLe as bs else decide (a < b)

def strLe (a b : String) : Bool := charListLe a.toList b.toList

/-- Does `s` start with `pat`? -/
def charsStartWith : List Char → List Char → Bool
  | [], _ => true
  | _ :: _, [] => false
  | p :: ps, c :: cs => p == c && charsStartWith ps cs

/-- Does `s` contain `pat` as a contiguous run?  Models a JavaScript
fixed-string regex test / `String.prototype.includes`. -/
def charsHaveInfix (pat : List Char) : List Char → Bool
  | [] => charsStartWith pat []
  | c :: rest => charsStartWith pat (c :: rest) || charsHaveInfix pat rest

/-- `strContains s pat`: `pat` occurs inside `s`. -/
def strContains (s pat : String) : Bool := charsHaveInfix pat.toList s.toList

/-! ## Stat parsing utilities (`parseNumberFromStat`, `parseMinutes`,
`parseClockToSeconds`) -/

/-- Match `\d+(\.\d+)?` at the start of `l` and return its numeric value. -/
def numCoreVal (l : List Char) : Option ℚ :=
  let p := takeDigits l
  if p.1 = [] then none
  else
    match p.2 with
    | '.' :: r2 =>
      let f := (takeDigits r2).1
      if f = [] then some (natOfDigits p.1 : ℚ)
      else some ((natOfDigits p.1 : ℚ) + fracOfDigits f)
    | _ => some (natOfDigits p.1 : ℚ)

/-- Match `-?\d+(\.\d+)?` at the start of `l`. -/
def numValAt (l : List Char) : Option ℚ :=
  match l with
  | '-' :: rest => (numCoreVal rest).map (fun q => -q)
  | _ => numCoreVal l

/-- Leftmost match of `-?\d+(\.\d+)?` in `l`, as `String.prototype.match`. -/
def firstNumVal : List Char → Option ℚ
  | [] => none
  | c :: rest =>
    match numValAt (c :: rest) with
    | some q => some q
    | none => firstNumVal rest

/-- `parseNumberFromStat`: first signed decimal token of the input, `0` when
the input is `undefined`/`null` (`none`) or holds no token. -/
def parseNumberFromStat (value : Option String) : ℚ :=
  match value with
  | none => 0
  | some s => (firstNumVal s.toList).getD 0

/-- Anchored `^\d+(\.\d+)?$`, with its numeric value. -/
def bareNumVal (l : List Char) : Option ℚ :=
  let p := takeDigits l
  if p.1 = [] then none
  else
    match p.2 with
    | [] => some (natOfDigits p.1 : ℚ)
    | '.' :: r2 =>
      let f := takeDigits r2
      if f.1 = [] ∨ f.2 ≠ [] then none
      else some ((natOfDigits p.1 : ℚ) + fracOfDigits f.1)
    | _ => none

/-- Anchored `^(\d+):(\d{1,2})(?:\.\d+)?$` of `parseMinutes`; the fractional
seconds group is non-capturing, so its value is dropped. -/
def colonMinutesVal (l : List Char) : Option ℚ :=
  let p := takeDigits l
  if p.1 = [] then none
  else
    match p.2 with
    | ':' :: r2 =>
      let q := takeDigits r2
      if q.1 = [] ∨ 2 < q.1.length then none
      else
        match q.2 with
        | [] => some ((natOfDigits p.1 : ℚ) + (natOfDigits q.1 : ℚ) / 60)
        | '.' :: r4 =>
          let f := takeDigits r4
          if f.1 = [] ∨ f.2 ≠ [] then none
          else some ((natOfDigits p.1 : ℚ) + (natOfDigits q.1 : ℚ) / 60)
        | _ => none
    | _ => none

/-- Anchored case-insensitive `^PT(?:(\d+)M)?(?:(\d+(?:\.\d+)?)S)?$`, giving
`minutes + seconds / 60`. -/
def isoMinutesVal (l : List Char) : Option ℚ :=
  match l with
  | p :: t :: rest =>
    if p.toLower = 'p' ∧ t.toLower = 't' then
      let d1 := takeDigits rest
      let afterM : Option (ℕ × List Char) :=
        match d1.2 with
        | m :: r2 => if d1.1 ≠ [] ∧ m.toLower = 'm' then some (natOfDigits d1.1, r2) else none
        | [] => none
      let mPart : ℚ × List Char :=
        match afterM with
        | some nr => ((nr.1 : ℚ), nr.2)
        | none => (0, rest)
      let d2 := takeDigits mPart.2
      let afterS : Option (ℚ × List Char) :=
        if d2.1 = [] then none
        else
          match d2.2 with
          | '.' :: r3 =>
            let f := takeDigits r3
            if f.1 = [] then none
            else
              match f.2 with
              | s :: r5 =>
                if s.toLower = 's' then
                  some ((natOfDigits d2.1 : ℚ) + fracOfDigits f.1, r5)
                else none
              | [] => none
          | s :: r3 =>
            if s.toLower = 's' then some ((natOfDigits d2.1 : ℚ), r3) else none
          | [] => none
      let sPart : ℚ × List Char :=
        match afterS with
        | some qr => qr
        | none => (0, mPart.2)
      if sPart.2 = [] then some (mPart.1 + sPart.1 / 60) else none
    else none
  | _ => none

/-- `parseMinutes`: bare decimal minutes, `MM:SS` clock notation, ISO-8601
duration, or generic numeric extraction; `0` for empty input. -/
def parseMinutes (value : Option String) : ℚ :=
  let text := jsTrim (value.getD "")
  if text = "" then 0
  else
    match bareNumVal text.toList with
    | some q => q
    | none =>
      match colonMinutesVal text.toList with
      | some q => q
      | none =>
        match isoMinutesVal text.toList with
        | some q => q
        | none => parseNumberFromStat (some text)

/-- Anchored `^(\d+):(\d{1,2})(?:\.(\d+))?$` of the display clock; here the
fractional part is captured and added. -/
def clockDisplayVal (l : List Char) : Option ℚ :=
  let p := takeDigits l
  if p.1 = [] then none
  else
    match p.2 with
    | ':' :: r2 =>
      let q := takeDigits r2
      if q.1 = [] ∨ 2 < q.1.length then none
      else
        let base : ℚ := (natOfDigits p.1 : ℚ) * 60 + (natOfDigits q.1 : ℚ)
        match q.2 with
        | [] => some base
        | '.' :: r4 =>
          let f := takeDigits r4
          if f.1 = [] ∨ f.2 ≠ [] then none else some (base + fracOfDigits f.1)
        | _ => none
    | _ => none

/-- Match the free-text pattern `(\d):(\d{2})(?:\.(\d+))?` at the start. -/
def textClockAt (l : List Char) : Option ℚ :=
  match l with
  | c0 :: c1 :: c2 :: c3 :: rest =>
    if c0.isDigit ∧ c1 = ':' ∧ c2.isDigit ∧ c3.isDigit then
      let base : ℚ := ((c0.toNat - 48 : ℕ) : ℚ) * 60 +
        ((10 * (c2.toNat - 48) + (c3.toNat - 48) : ℕ) : ℚ)
      match rest with
      | '.' :: r2 =>
        let f := (takeDigits r2).1
        if f = [] then some base else some (base + fracOfDigits f)
      | _ => some base
    else none
  | _ => none

/-- Leftmost free-text clock match. -/
def textClockScan : List Char → Option ℚ
  | [] => none
  | c :: rest =>
    match textClockAt (c :: rest) with
    | some q => some q
    | none => textClockScan rest

/-! ## Raw summary data model

Structures mirror exactly the fields the script reads; a missing JSON field is
the structure's default (`""`, `0`, `[]`, `false`), matching the script's
`(x || {}).f || default` access chains.  Scores and the season-type code are
carried as their `Number(… || 0)` conversion. -/

structure Clock where
  displayValue : String := ""
deriving Repr, DecidableEq

structure Play where
  clock : Clock := {}
  text : String := ""
deriving Repr, DecidableEq

/-- `parseClockToSeconds`: display clock, else free-text scan, else `Infinity`
(`none`). -/
def parseClockToSeconds (play : Play) : Option ℚ :=
  let display := jsTrim play.clock.displayValue
  match clockDisplayVal display.toList with
  | some q => some q
  | none => textClockScan (jsToLower play.text).toList

structure Logo where
  rel : List String := []
  href : String := ""
deriving Repr, DecidableEq

structure Team where
  id : String := ""
  abbreviation : String := ""
  logos : List Logo := []
  logo : String := ""
deriving Repr, DecidableEq

structure Competitor where
  team : Team := {}
  score : ℚ := 0
  winner : Bool := false
  homeAway : String := ""
deriving Repr, DecidableEq

structure StatusType where
  detail : String := ""
deriving Repr, DecidableEq

structure Status where
  type : StatusType := {}
deriving Repr, DecidableEq

structure SeriesEntry where
  type : String := ""
  title : String := ""
  description : String := ""
  summary : String := ""
deriving Repr, DecidableEq

structure Competition where
  competitors : List Competitor := []
  date : String := ""
  status : Status := {}
  series : List SeriesEntry := []
deriving Repr, DecidableEq

structure SeasonInfo where
  type : ℚ := 0
deriving Repr, DecidableEq

structure Header where
  competitions : List Competition := []
  season : SeasonInfo := {}
deriving Repr, DecidableEq

structure WinProbSample where
  homeWinPercentage : ℚ := 0
  homeScore : ℚ := 0
  awayScore : ℚ := 0
deriving Repr, DecidableEq

structure AthleteInfo where
  displayName : String := ""
  id : String := ""
deriving Repr, DecidableEq

structure AthleteRow where
  athlete : AthleteInfo := {}
  stats : List String := []
  starter : Option Bool := none
deriving Repr, DecidableEq

structure StatGroup where
  labels : List String := []
  athletes : List AthleteRow := []
deriving Repr, DecidableEq

structure PlayerBlock where
  team : Team := {}
  statistics : List StatGroup := []
deriving Repr, DecidableEq

structure TeamStatItem where
  name : String := ""
  displayName : String := ""
  displayValue : String := ""
  value : String := ""
deriving Repr, DecidableEq

structure TeamRow where
  team : Team := {}
  statistics : List TeamStatItem := []
deriving Repr, DecidableEq

structure Boxscore where
  players : List PlayerBlock := []
  teams : List TeamRow := []
deriving Repr, DecidableEq

structure Summary where
  header : Header := {}
  boxscore : Boxscore := {}
  winprobability : List WinProbSample := []
  plays : List Play := []
deriving Repr, DecidableEq

/-- `PACERS_TEAM_ID`. -/
def PACERS_TEAM_ID : String := "11"

def PACERS_LOGO_URL : String := "https://a.espncdn.com/i/teamlogos/nba/500/ind.png"

/-- `TEAM_ID_BY_ABBR` lookup table. -/
def TEAM_ID_BY_ABBR : List (String × String) :=
  [("ATL", "1"), ("BOS", "2"), ("BKN", "17"), ("CHA", "30"), ("CHI", "4"),
   ("CLE", "5"), ("DAL", "6"), ("DEN", "7"), ("DET", "8"), ("GS", "9"),
   ("HOU", "10"), ("IND", "11"), ("LAC", "12"), ("LAL", "13"), ("MEM", "29"),
   ("MIA", "14"), ("MIL", "15"), ("MIN", "16"), ("NO", "3"), ("NY", "18"),
   ("OKC", "25"), ("ORL", "19"), ("PHI", "20"), ("PHX", "21"), ("POR", "22"),
   ("SAC", "23"), ("SA", "24"), ("TOR", "28"), ("UTA", "26"), ("WAS", "27")]

/-! ## Season label and context extraction -/

/-- Year digits `0..3` of an ISO date string, when they are all digits. -/
def dateYear (dateStr : String) : Option ℕ :=
  let l := (dateStr.toList.take 4)
  if l.length = 4 ∧ l.all Char.isDigit then some (natOfDigits l) else none

/-- Month digits `5..6` of an ISO date string, when they are digits. -/
def dateMonth (dateStr : String) : Option ℕ :=
  let l := (dateStr.toList.drop 5).take 2
  if l.length = 2 ∧ l.all Char.isDigit then some (natOfDigits l) else none

def pad2 (n : ℕ) : String := if n < 10 then "0" ++ toString n else toString n

/-- `seasonLabelFromDate`: July starts a new season year; a date the `Date`
constructor cannot interpret yields the `NaN` label. -/
def seasonLabelFromDate (dateStr : String) : String :=
  match dateYear dateStr, dateMonth dateStr with
  | some year, some month =>
    let start : ℤ := if 7 ≤ month then (year : ℤ) else (year : ℤ) - 1
    toString start ++ "-" ++ pad2 ((start + 1).emod 100).toNat
  | _, _ => "NaN-NaN"

structure Context where
  competition : Competition
  pacersComp : Competitor
  oppComp : Competitor
  pacersScore : ℚ
  oppScore : ℚ
  won : Bool
  homeAway : String
  opponent : String
  result : String
  playoffs : Bool
deriving Repr, DecidableEq

/-- The first competition of the header (`(… .competitions || [])[0] || {}`). -/
def headCompetition (summary : Summary) : Competition :=
  summary.header.competitions.headD {}

/-- `collectPacersTeamContext`: resolve team-of-interest and opponent
competitors from the first competition of the header, else no context. -/
def collectPacersTeamContext (summary : Summary) : Option Context :=
  let competition := headCompetition summary
  let competitors := competition.competitors
  match competitors.find? (fun c => c.team.id == PACERS_TEAM_ID),
        competitors.find? (fun c => c.team.id != PACERS_TEAM_ID) with
  | some pacersComp, some oppComp =>
    let pacersScore := pacersComp.score
    let oppScore := oppComp.score
    let won := pacersComp.winner
    some
      { competition := competition
        pacersComp := pacersComp
        oppComp := oppComp
        pacersScore := pacersScore
        oppScore := oppScore
        won := won
        homeAway := if jsToUpper pacersComp.homeAway = "HOME" then "HOME" else "AWAY"
        opponent := jsToUpper (if oppComp.team.abbreviation = "" then "UNK" else oppComp.team.abbreviation)
        result := (if won then "W " else "L ") ++ ratToStr pacersScore ++ "-" ++ ratToStr oppScore
        playoffs := summary.header.season.type = 3 }
  | _, _ => none

/-! ## Entries -/

structure PlayerRef where
  name : String
  id : String
deriving Repr, DecidableEq

structure Entry where
  date : String
  season : String
  opponent : String
  homeAway : String
  result : String
  playoffs : Bool
  player : String
  stat_line : String
  category : String
  trauma : Bool
  trauma_level : Option String := none
  why : String
  image : String
deriving Repr, DecidableEq

/-- `getOpponentLogo`: default-rel logo, first logo, `team.logo`, abbreviation
table, then the team-of-interest logo. -/
def getOpponentLogo (context : Context) : String :=
  let oppTeam := context.oppComp.team
  let defaultLogo := oppTeam.logos.find? (fun l => l.rel.contains "default")
  let bestLogo := match defaultLogo with
    | some l => some l
    | none => oppTeam.logos.head?
  match bestLogo with
  | some l =>
    if l.href ≠ "" then l.href
    else if oppTeam.logo ≠ "" then oppTeam.logo
    else
      let abbr := jsToUpper (if oppTeam.abbreviation = "" then context.opponent else oppTeam.abbreviation)
      match (TEAM_ID_BY_ABBR.find? (fun p => p.1 = abbr)) with
      | some _ => "https://a.espncdn.com/i/teamlogos/nba/500/" ++ jsToLower abbr ++ ".png"
      | none => PACERS_LOGO_URL
  | none =>
    if oppTeam.logo ≠ "" then oppTeam.logo
    else
      let abbr := jsToUpper (if oppTeam.abbreviation = "" then context.opponent else oppTeam.abbreviation)
      match (TEAM_ID_BY_ABBR.find? (fun p => p.1 = abbr)) with
      | some _ => "https://a.espncdn.com/i/teamlogos/nba/500/" ++ jsToLower abbr ++ ".png"
      | none => PACERS_LOGO_URL

/-- `createBaseEntry`: the immutable base record every classifier emits. -/
def createBaseEntry (context : Context) (summary : Summary) (player : PlayerRef)
    (statLine category why : String) : Entry :=
  let compDate := (headCompetition summary).date
  let hasPlayerHeadshot := player.id ≠ "" ∧ player.id ≠ "0"
  { date := strTake compDate 10
    season := seasonLabelFromDate compDate
    opponent := context.opponent
    homeAway := context.homeAway
    result := context.result
    playoffs := context.playoffs
    player := if player.name = "" then "Unknown" else player.name
    stat_line := statLine
    category := category
    trauma := false
    trauma_level := none
    why := why
    image :=
      if hasPlayerHeadshot then
        "https://a.espncdn.com/i/headshots/nba/players/full/" ++ player.id ++ ".png"
      else getOpponentLogo context }

/-- `traumaify`: upgrade a base entry to a trauma entry (a new record). -/
def traumaify (entry : Entry) (why : String) : Entry :=
  { entry with category := "TRAUMA", trauma := true, trauma_level := some "HIGH", why := why }

/-- `getPacersPeakLead`: maximum over win-probability samples of the actual
score edge and the implied lead `round((p - 0.5) * 40)`. -/
def getPacersPeakLead (summary : Summary) (context : Context) : ℚ :=
  summary.winprobability.foldl
    (fun lead wp =>
      let diff := wp.homeScore - wp.awayScore
      let pacersHome := jsToLower context.pacersComp.homeAway = "home"
      let pacersEdge := if pacersHome then diff else -diff
      let lead1 := if pacersEdge > lead then pacersEdge else lead
      let impliedLead : ℤ :=
        if pacersHome then jsRound ((wp.homeWinPercentage - 1/2) * 40)
        else jsRound ((1 - wp.homeWinPercentage - 1/2) * 40)
      if (impliedLead : ℚ) > lead1 then (impliedLead : ℚ) else lead1)
    0

/-! ## Running-average store and the player-moment classifier -/

structure AvgRec where
  games : ℕ
  points : ℚ
deriving Repr, DecidableEq

/-- The `runningAverages` object: total on keys, missing key reads as the
`{ games: 0, points: 0 }` default the script supplies. -/
def Store : Type := String → AvgRec

def emptyStore : Store := fun _ => ⟨0, 0⟩

def updateStore (st : Store) (k : String) (v : AvgRec) : Store :=
  fun k2 => if k2 = k then v else st k2

/-- The `` `${seasonKey}:${name}` `` store key. -/
def avgKey (seasonKey name : String) : String := seasonKey ++ ":" ++ name

/-- `statMapForAthlete` lookup: the stat at the last label position naming
`key` (later labels overwrite), `none` past the end of the stats row. -/
def statMapForAthlete (row : AthleteRow) (labels : List String) (key : String) : Option String :=
  (List.range labels.length).foldl
    (fun acc i =>
      if jsToUpper ((labels.get? i).getD "") = key then row.stats.get? i else acc)
    none

/-- The athlete's display name with the `'Unknown'` fallback. -/
def rowName (row : AthleteRow) : String :=
  if row.athlete.displayName = "" then "Unknown" else row.athlete.displayName

def rowId (row : AthleteRow) : String :=
  if row.athlete.id = "" then "0" else row.athlete.id

def rowKey (seasonKey : String) (row : AthleteRow) : String := avgKey seasonKey (rowName row)

def rowPoints (labels : List String) (row : AthleteRow) : ℚ :=
  parseNumberFromStat (statMapForAthlete row labels "PTS")

def rowMinutes (labels : List String) (row : AthleteRow) : ℚ :=
  parseMinutes (statMapForAthlete row labels "MIN")

/-- `row.starter === false`. -/
def rowIsBench (row : AthleteRow) : Bool := row.starter = some false

/-- Pre-game average read from a store record. -/
def preAvgOf (avg : AvgRec) : ℚ := if 0 < avg.games then avg.points / (avg.games : ℚ) else 0

/-- Explosion rule chain, first match wins; `""` means no explosion entry. -/
def explosionWhy (name : String) (isBench : Bool) (points preGameAverage : ℚ)
    (priorGames : ℕ) (minutes : ℚ) : String :=
  if isBench ∧ 30 ≤ points then
    "Bench detonation: " ++ name ++ " dropped " ++ ratToStr points ++ " off the bench."
  else if 45 ≤ points then
    name ++ " went for " ++ ratToStr points ++ ". Full orbital launch."
  else if 35 ≤ points ∧ preGameAverage < 12 ∧ 8 ≤ priorGames then
    name ++ " averaged " ++ toFixed1 preGameAverage ++ " then exploded for " ++ ratToStr points ++ "."
  else if 25 ≤ points ∧ 0 < minutes ∧ minutes < 25 then
    name ++ " scored " ++ ratToStr points ++ " in " ++ toFixed1 minutes ++ " minutes."
  else ""

/-- Chaos rule chain, first match wins; `""` means no chaos entry. -/
def chaosWhy (name : String) (points rebounds assists turnovers steals blocks : ℚ) : String :=
  let tripleDoubleBuckets :=
    ([points, rebounds, assists, steals, blocks].filter (fun v => 10 ≤ v)).length
  if 3 ≤ tripleDoubleBuckets ∧ 7 ≤ turnovers then
    name ++ " posted a triple-double and " ++ ratToStr turnovers ++ " turnovers. Maximum volatility."
  else if 10 ≤ turnovers then
    name ++ " turned it over " ++ ratToStr turnovers ++ " times and somehow it was still a game."
  else if 6 ≤ steals then
    name ++ " ripped " ++ ratToStr steals ++ " steals in one night."
  else if 7 ≤ blocks then
    name ++ " rejected " ++ ratToStr blocks ++ " shots like a bouncer."
  else if 15 ≤ assists ∧ turnovers = 0 then
    name ++ " posted " ++ ratToStr assists ++ " assists with 0 turnovers. Surgical control."
  else ""

/-- Entries one athlete row contributes, with the pre-game average read from
the store `st` handed in. -/
def rowEntriesWith (summary : Summary) (context : Context) (seasonKey : String)
    (labels : List String) (st : Store) (row : AthleteRow) : List Entry :=
  let name := rowName row
  let player : PlayerRef := ⟨name, rowId row⟩
  let points := rowPoints labels row
  let rebounds := parseNumberFromStat (statMapForAthlete row labels "REB")
  let assists := parseNumberFromStat (statMapForAthlete row labels "AST")
  let turnovers := parseNumberFromStat (statMapForAthlete row labels "TO")
  let steals := parseNumberFromStat (statMapForAthlete row labels "STL")
  let blocks := parseNumberFromStat (statMapForAthlete row labels "BLK")
  let minutes := rowMinutes labels row
  let statLine := ratToStr points ++ " pts, " ++ ratToStr rebounds ++ " reb, " ++
    ratToStr assists ++ " ast"
  let avg := st (rowKey seasonKey row)
  let randomWhy := explosionWhy name (rowIsBench row) points (preAvgOf avg) avg.games minutes
  let cWhy := chaosWhy name points rebounds assists turnovers steals blocks
  (if randomWhy ≠ "" then
    [createBaseEntry context summary player statLine "RANDOM_EXPLOSION" randomWhy]
   else []) ++
  (if cWhy ≠ "" then [createBaseEntry context summary player statLine "CHAOS" cWhy] else [])

/-- One iteration of the athlete loop: read, classify, then record the game
into the running-average store. -/
def athleteStep (summary : Summary) (context : Context) (seasonKey : String)
    (labels : List String) (acc : List Entry × Store) (row : AthleteRow) : List Entry × Store :=
  let k := rowKey seasonKey row
  let avg := acc.2 k
  (acc.1 ++ rowEntriesWith summary context seasonKey labels acc.2 row,
   updateStore acc.2 k ⟨avg.games + 1, avg.points + rowPoints labels row⟩)

/-- The team-of-interest player block of the boxscore. -/
def pacersPlayerBlock (summary : Summary) : Option PlayerBlock :=
  summary.boxscore.players.find? (fun b => b.team.id == PACERS_TEAM_ID)

/-- Uppercased labels of the first stat group of the block. -/
def pacersLabels (summary : Summary) : List String :=
  match pacersPlayerBlock summary with
  | none => []
  | some blk => ((blk.statistics.headD {}).labels).map jsToUpper

/-- Athlete rows of the first stat group of the block. -/
def pacersAthleteRows (summary : Summary) : List AthleteRow :=
  match pacersPlayerBlock summary with
  | none => []
  | some blk => (blk.statistics.headD {}).athletes

/-- `detectPlayerMoments`: fold the athlete loop over the boxscore rows,
returning the emitted entries and the updated store. -/
def detectPlayerMoments (summary : Summary) (context : Context) (store : Store)
    (seasonKey : String) : List Entry × Store :=
  match pacersPlayerBlock summary with
  | none => ([], store)
  | some blk =>
    let labels := ((blk.statistics.headD {}).labels).map jsToUpper
    ((blk.statistics.headD {}).athletes).foldl
      (athleteStep summary context seasonKey labels) ([], store)

/-! ## Team weirdness classifier -/

structure TeamStats where
  fgPct : ℚ
  pacersScore : ℚ
  oppScore : ℚ
  won : Bool
deriving Repr, DecidableEq

/-- The `findStat` helper of `parseTeamStats`. -/
def findStat (row : TeamRow) (key : String) : String :=
  match row.statistics.find?
      (fun item => jsToUpper item.name == key || jsToUpper item.displayName == key) with
  | some stat => if stat.displayValue ≠ "" then stat.displayValue else stat.value
  | none => ""

/-- `parseTeamStats`: field-goal percentage (with the `FG%` fallback when the
first lookup parses to `0`) plus the context's scores and win flag. -/
def parseTeamStats (summary : Summary) (context : Context) : TeamStats :=
  let pacersRow := (summary.boxscore.teams.find? (fun r => r.team.id == PACERS_TEAM_ID)).getD {}
  let a := parseNumberFromStat (some (findStat pacersRow "FIELD GOAL PCT"))
  let fgPct := if a ≠ 0 then a else parseNumberFromStat (some (findStat pacersRow "FG%"))
  { fgPct := fgPct
    pacersScore := context.pacersScore
    oppScore := context.oppScore
    won := context.won }

def teamEventPlayer : PlayerRef := ⟨"Team Event", "0"⟩

def teamStatLine (context : Context) : String :=
  ratToStr context.pacersScore ++ " pts, opp " ++ ratToStr context.oppScore ++ " pts"

def wonShootingBadlyWhy (fgPct : ℚ) : String :=
  "Pacers won while shooting " ++ toFixed1 fgPct ++ "%. Basketball is fake."

/-- `detectTeamWeirdness`: stateless team-level rules, any subset may fire. -/
def detectTeamWeirdness (summary : Summary) (context : Context) : List Entry :=
  let team := parseTeamStats summary context
  let statLine := teamStatLine context
  let mk := fun why => createBaseEntry context summary teamEventPlayer statLine "TEAM_WEIRDNESS" why
  let items1 :=
    if team.won ∧ 0 < team.fgPct ∧ team.fgPct < 35 then [mk (wonShootingBadlyWhy team.fgPct)]
    else []
  let items2 :=
    if ¬ team.won ∧ 130 ≤ team.pacersScore then
      [mk "Dropped 130+ and still lost. Defense dissolved completely."]
    else []
  let items3 := if 150 ≤ team.oppScore then [mk "Allowed 150+. Historical nonsense occurred."] else []
  let pacersPeakLead := getPacersPeakLead summary context
  let items4 :=
    if ¬ team.won ∧ 20 ≤ pacersPeakLead then
      [mk ("Blew a " ++ toString (jsRound pacersPeakLead) ++ "-point lead.")]
    else []
  let detail := jsToLower context.competition.status.type.detail
  let margin := |team.pacersScore - team.oppScore|
  let items5 :=
    if ¬ team.won ∧ strContains detail "ot" ∧ (margin = 1 ∨ margin = 2) then
      [mk ("Overtime loss by " ++ ratToStr margin ++ ". Painfully precise.")]
    else []
  items1 ++ items2 ++ items3 ++ items4 ++ items5

/-! ## Trauma classifier -/

/-- The base team-event entry the trauma classifier upgrades. -/
def traumaBase (summary : Summary) (context : Context) : Entry :=
  createBaseEntry context summary teamEventPlayer (teamStatLine context) "TRAUMA"
    "Hope briefly existed."

def statusDetailUpper (context : Context) : String :=
  jsToUpper context.competition.status.type.detail

/-- The playoff series block of the competition, when present. -/
def playoffSeries (context : Context) : Option SeriesEntry :=
  context.competition.series.find? (fun entry => jsToLower entry.type == "playoff")

def seriesSummaryUpper (context : Context) : String :=
  jsToUpper ((playoffSeries context).getD {}).summary

def seriesTitleUpper (context : Context) : String :=
  jsToUpper (((playoffSeries context).getD {}).title ++ " " ++ ((playoffSeries context).getD {}).description)

/-- Elimination reason: the playoff series summary says some other team wins
the series. -/
def eliminationCond (context : Context) : Bool :=
  context.playoffs && strContains (seriesSummaryUpper context) "WINS SERIES" &&
    !(strContains (seriesSummaryUpper context) "IND")

def game7Cond (context : Context) : Bool :=
  context.playoffs && strContains (statusDetailUpper context) "GAME 7"

def finalsCond (context : Context) : Bool :=
  context.playoffs && (strContains (seriesTitleUpper context) "CONFERENCE FINALS" ||
    strContains (seriesTitleUpper context) "NBA FINALS")

def rivalCond (context : Context) : Bool :=
  context.playoffs && (context.opponent == "NY" || context.opponent == "MIA")

/-- A play records an opponent make inside the final three seconds. -/
def lateOpponentGameWinner (summary : Summary) : Bool :=
  summary.plays.any (fun play =>
    let text := play.text.toLower
    if !(strContains text "makes" || strContains text "made" ||
         strContains text "hits" || strContains text "hit") then false
    else
      match parseClockToSeconds play with
      | none => false
      | some secondsLeft =>
        if 3 < secondsLeft then false
        else !(strContains text "pacers"))

def game7Msg : String := "Game 7 loss. Historic pain tier unlocked."

/-- Trauma reasons in priority order; the classifier emits only the first. -/
def traumaReasons (summary : Summary) (context : Context) : List String :=
  (if eliminationCond context then ["Playoff elimination confirmed. Remote tossed."] else []) ++
  (if game7Cond context then [game7Msg] else []) ++
  (if finalsCond context then ["ECF/Finals loss. Banner-adjacent heartbreak."] else []) ++
  (if rivalCond context then
    [context.opponent ++ " playoff loss. Annual emotional tax paid."] else []) ++
  (if 20 ≤ getPacersPeakLead summary context then
    ["Led by " ++ toString (jsRound (getPacersPeakLead summary context)) ++
      " and still lost. Hope briefly existed."] else []) ++
  (if lateOpponentGameWinner summary then ["Buzzer-beater loss in the final 3 seconds."] else [])

/-- `detectTrauma`: fires only on losses, emits at most the first matching
reason. -/
def detectTrauma (summary : Summary) (context : Context) : List Entry :=
  if context.won then []
  else
    match traumaReasons summary context with
    | [] => []
    | reason :: _ => [traumaify (traumaBase summary context) reason]

/-! ## Corpus curator -/

/-- The dedup key `[date, opponent, player, category, why].join('|')`. -/
def entryKey (entry : Entry) : String :=
  entry.date ++ "|" ++ entry.opponent ++ "|" ++ entry.player ++ "|" ++
    entry.category ++ "|" ++ entry.why

def dedupeAux : List String → List Entry → List Entry
  | _, [] => []
  | seen, entry :: rest =>
    if seen.contains (entryKey entry) then dedupeAux seen rest
    else entry :: dedupeAux (entryKey entry :: seen) rest

/-- `dedupeEntries`: keep the first occurrence of every dedup key. -/
def dedupeEntries (entries : List Entry) : List Entry := dedupeAux [] entries

/-- Characters of `s` before the first occurrence of `pat`, the whole of `s`
when `pat` does not occur: JavaScript `s.split(pat)[0]` for nonempty `pat`. -/
def beforeMatch (pat : List Char) : List Char → List Char
  | [] => []
  | c :: rest =>
    if charsStartWith pat (c :: rest) then [] else c :: beforeMatch pat rest

/-- Points figure parsed back out of an entry's stat line. -/
def entryPoints (entry : Entry) : ℚ :=
  parseNumberFromStat (some (String.mk (beforeMatch " pts".toList entry.stat_line.toList)))

/-- `entryQualityScore`: trauma base `100`, explosion/chaos bonus `25`, plus
the stat-line points capped at `60`. -/
def entryQualityScore (entry : Entry) : ℚ :=
  (if entry.trauma = true then 100 else 0) +
  (if entry.category = "RANDOM_EXPLOSION" ∨ entry.category = "CHAOS" then 25 else 0) +
  min (entryPoints entry) 60

/-- Comparator of the final date-descending sorts. -/
def dateDescLe (a b : Entry) : Bool := strLe b.date a.date

/-- Comparator of the quality sort: score descending, ties by later date. -/
def qualityLe (a b : Entry) : Bool :=
  entryQualityScore b < entryQualityScore a ∨
    (entryQualityScore a = entryQualityScore b ∧ strLe b.date a.date)

/-- The curation step of `main`: dedupe, date-descending sort, and when over
the 400 cap keep the 400 best quality scores re-sorted by date. -/
def finalizeEntries (collected : List Entry) : List Entry :=
  let finalEntries := (dedupeEntries collected).mergeSort dateDescLe
  if 400 < finalEntries.length then
    ((finalEntries.mergeSort qualityLe).take 400).mergeSort dateDescLe
  else finalEntries

/-! ## Pipeline driver (per-game processing after fetch) -/

/-- JavaScript `Number()` on a plain decimal string; `none` is `NaN`.  (The
script applies it to the 4-character year slice of a date string.) -/
def jsStrToNum (s : String) : Option ℚ :=
  let t := jsTrim s
  if t = "" then some 0
  else
    let signAndRest : Bool × List Char :=
      match t.toList with
      | '-' :: r => (true, r)
      | '+' :: r => (false, r)
      | l => (false, l)
    match bareNumVal signAndRest.2 with
    | some q => some (if signAndRest.1 then -q else q)
    | none => none

def START_SEASON : ℕ := 1995

/-- The skip test of the main loop: empty game date, or a year slice that
`Number()` reads as a value below `START_SEASON` (a `NaN` year does not
compare below and is not skipped). -/
def gameDateSkips (gameDate : String) : Bool :=
  gameDate = "" ||
    (match jsStrToNum (strTake gameDate 4) with
     | some y => y < (START_SEASON : ℚ)
     | none => false)

/-- One iteration of the main loop after a successful fetch: extract context,
apply the date guard, run the three classifiers, thread the store. -/
def processGame (store : Store) (summary : Summary) : List Entry × Store :=
  match collectPacersTeamContext summary with
  | none => ([], store)
  | some context =>
    let gameDate := strTake context.competition.date 10
    if gameDateSkips gameDate then ([], store)
    else
      let seasonKey := seasonLabelFromDate context.competition.date
      let pm := detectPlayerMoments summary context store seasonKey
      (pm.1 ++ detectTeamWeirdness summary context ++ detectTrauma summary context, pm.2)

/-- The accumulated candidate list and final store over a chronological game
sequence. -/
def runCollect (games : List Summary) : List Entry × Store :=
  games.foldl
    (fun acc summary =>
      let r := processGame acc.2 summary
      (acc.1 ++ r.1, r.2))
    ([], emptyStore)

/-- The whole post-fetch pipeline: classify every game, then curate. -/
def runPipeline (games : List Summary) : List Entry :=
  finalizeEntries (runCollect games).1

/-! ## Lemmas about the stat parsers -/

theorem numCoreVal_eq_none (l : List Char) (h : ∀ c ∈ l, c.isDigit = false) :
    numCoreVal l = none := by
  unfold numCoreVal takeDigits
  cases l with
  | nil => simp
  | cons c t => simp [List.takeWhile_cons, h c (by simp)]

theorem numValAt_eq_none (l : List Char) (h : ∀ c ∈ l, c.isDigit = false) :
    numValAt l = none := by
  rw [numValAt.eq_def]
  split
  · next rest =>
    rw [numCoreVal_eq_none rest (fun c hc => h c (by simp [hc]))]
    rfl
  · next => exact numCoreVal_eq_none l h

theorem firstNumVal_eq_none (l : List Char) (h : ∀ c ∈ l, c.isDigit = false) :
    firstNumVal l = none := by
  induction l with
  | nil => rfl
  | cons c t ih =>
    unfold firstNumVal
    rw [numValAt_eq_none (c :: t) h, ih (fun x hx => h x (by simp [hx]))]

theorem clockDisplayVal_eq_none (l : List Char) (h : ':' ∉ l) : clockDisplayVal l = none := by
  by_cases h1 : (takeDigits l).1 = []
  · simp [clockDisplayVal, h1]
  · rcases h2 : (takeDigits l).2 with _ | ⟨c, r⟩
    · simp [clockDisplayVal, h1, h2]
    · have hcl : c ∈ l := by
        have hmem : c ∈ l.dropWhile Char.isDigit := by
          have : l.dropWhile Char.isDigit = c :: r := h2
          rw [this]; simp
        exact (List.dropWhile_sublist Char.isDigit).subset hmem
      have hne : c ≠ ':' := fun hc => h (hc ▸ hcl)
      simp [clockDisplayVal, h1, h2, hne]

theorem textClockAt_eq_none (l : List Char) (h : ':' ∉ l) : textClockAt l = none := by
  rw [textClockAt.eq_def]
  split
  · next c0 c1 c2 c3 rest =>
    rw [if_neg]
    rintro ⟨-, hc, -⟩
    exact h (by simp [hc])
  · rfl

theorem textClockScan_eq_none (l : List Char) (h : ':' ∉ l) : textClockScan l = none := by
  induction l with
  | nil => rfl
  | cons c t ih =>
    unfold textClockScan
    rw [textClockAt_eq_none (c :: t) h, ih (fun hx => h (by simp [hx]))]

/-- C8: the three stat parsers are total functions: `parseNumberFromStat`
returns `0` on an absent input or one with no signed numeric token (a token
needs a digit); `parseMinutes` returns `0` on empty (all-whitespace) input;
and `parseClockToSeconds` returns the `Infinity` sentinel (`none`) when
neither the display clock nor the free text contains a clock pattern (a clock
pattern needs a colon). -/
theorem statParsersTotal :
    parseNumberFromStat none = 0 ∧
    (∀ s : String, (∀ c ∈ s.toList, c.isDigit = false) → parseNumberFromStat (some s) = 0) ∧
    parseMinutes none = 0 ∧
    (∀ s : String, jsTrim s = "" → parseMinutes (some s) = 0) ∧
    (∀ play : Play, ':' ∉ (jsTrim play.clock.displayValue).toList →
      ':' ∉ (jsToLower play.text).toList → parseClockToSeconds play = none) := by
  refine ⟨rfl, ?_, rfl, ?_, ?_⟩
  · intro s h
    show (firstNumVal s.toList).getD 0 = 0
    rw [firstNumVal_eq_none s.toList h]
    rfl
  · intro s h
    simp [parseMinutes, h]
  · intro play h1 h2
    simp only [parseClockToSeconds]
    rw [clockDisplayVal_eq_none _ h1, textClockScan_eq_none _ h2]

theorem statParsersTotalWitness :
    parseNumberFromStat (some "no digits here!") = 0 ∧
    parseMinutes (some "  ") = 0 ∧
    parseClockToSeconds { clock := { displayValue := " soon " }, text := "no clock left" } = none :=
  ⟨statParsersTotal.2.1 _ (by decide),
   statParsersTotal.2.2.2.1 _ (by decide),
   statParsersTotal.2.2.2.2 _ (by decide) (by decide)⟩

/-! ## C7: unresolvable context skips the game -/

/-- C7: when the competitor list does not resolve both a team-of-interest
competitor and an opponent competitor, context extraction reports no context
and the game is skipped with no entries and an unchanged running-average
store. -/
theorem contextUnresolvableSkips (store : Store) (summary : Summary)
    (h : (headCompetition summary).competitors.find?
          (fun c => c.team.id == PACERS_TEAM_ID) = none ∨
         (headCompetition summary).competitors.find?
          (fun c => c.team.id != PACERS_TEAM_ID) = none) :
    collectPacersTeamContext summary = none ∧ processGame store summary = ([], store) := by
  have hc : collectPacersTeamContext summary = none := by
    rcases h with h | h
    · simp only [collectPacersTeamContext, h]
    · cases hp : (headCompetition summary).competitors.find? (fun c => c.team.id == PACERS_TEAM_ID) <;>
        simp only [collectPacersTeamContext, h, hp]
  exact ⟨hc, by simp only [processGame, hc]⟩

theorem contextUnresolvableSkipsWitness :
    collectPacersTeamContext {} = none ∧ processGame emptyStore {} = ([], emptyStore) :=
  contextUnresolvableSkips emptyStore {} (by decide)

/-! ## C2 and C4: the curator -/

theorem charListLe_total : ∀ a b : List Char, charListLe a b || charListLe b a := by
  intro a
  induction a with
  | nil => intro b; simp [charListLe]
  | cons x xs ih =>
    intro b
    cases b with
    | nil => simp [charListLe]
    | cons y ys =>
      by_cases hxy : x = y
      · subst hxy
        simpa [charListLe] using ih ys
      · rcases lt_or_gt_of_ne hxy with h | h <;> simp [charListLe, hxy, Ne.symm hxy, h, le_of_lt]

theorem charListLe_trans :
    ∀ a b c : List Char, charListLe a b → charListLe b c → charListLe a c := by
  intro a
  induction a with
  | nil => intro b c _ _; simp [charListLe]
  | cons x xs ih =>
    intro b c hab hbc
    cases b with
    | nil => simp [charListLe] at hab
    | cons y ys =>
      cases c with
      | nil => simp [charListLe] at hbc
      | cons z zs =>
        by_cases hxy : x = y <;> by_cases hyz : y = z
        · subst hxy; subst hyz
          simp only [charListLe, if_pos rfl] at *
          exact ih ys zs hab hbc
        · subst hxy
          simp only [charListLe, if_pos rfl, if_neg hyz] at *
          simp [charListLe, hyz, hbc]
        · subst hyz
          simp only [charListLe, if_neg hxy] at *
          simp [charListLe, hxy, hab]
        · simp only [charListLe, if_neg hxy, if_neg hyz, decide_eq_true_eq] at hab hbc
          have hxz : x < z := lt_trans hab hbc
          simp [charListLe, ne_of_lt hxz, hxz]

theorem dateDescLe_trans (a b c : Entry) (hab : dateDescLe a b) (hbc : dateDescLe b c) :
    dateDescLe a c :=
  charListLe_trans _ _ _ hbc hab

theorem dateDescLe_total (a b : Entry) : dateDescLe a b || dateDescLe b a := by
  simpa [dateDescLe, strLe, Bool.or_comm] using charListLe_total b.date.toList a.date.toList

/-- C2: the curated corpus never exceeds 400 entries, is sorted descending by
date, and when the deduplicated candidate pool is within the cap it is exactly
the date-descending sort of that pool (no quality filtering below the cap). -/
theorem finalizeEntriesSpec (collected : List Entry) :
    (finalizeEntries collected).length ≤ 400 ∧
    (finalizeEntries collected).Pairwise (fun a b => strLe b.date a.date = true) ∧
    ((dedupeEntries collected).length ≤ 400 →
      finalizeEntries collected = (dedupeEntries collected).mergeSort dateDescLe) := by
  refine ⟨?_, ?_, ?_⟩
  · simp only [finalizeEntries]
    split
    · next hlen =>
      rw [List.length_mergeSort, List.length_take]
      omega
    · next hlen =>
      rw [List.length_mergeSort] at hlen ⊢
      omega
  · have hsorted : ∀ l : List Entry,
        (l.mergeSort dateDescLe).Pairwise (fun a b => strLe b.date a.date = true) := by
      intro l
      have hp := List.sorted_mergeSort dateDescLe_trans dateDescLe_total l
      exact hp.imp (fun h => h)
    simp only [finalizeEntries]
    split
    · exact hsorted _
    · exact hsorted _
  · intro hle
    simp only [finalizeEntries]
    rw [if_neg (by rw [List.length_mergeSort]; omega)]

theorem finalizeEntriesSpecWitness :
    (finalizeEntries []).length ≤ 400 ∧
    (finalizeEntries []).Pairwise (fun a b => strLe b.date a.date = true) ∧
    finalizeEntries [] = (dedupeEntries []).mergeSort dateDescLe :=
  ⟨(finalizeEntriesSpec []).1, (finalizeEntriesSpec []).2.1,
   (finalizeEntriesSpec []).2.2 (by decide)⟩

/-- C4: the curation step is idempotent: on a list that is already
deduplicated, within the 400 cap, and sorted date-descending it is the
identity. -/
theorem finalizeIdempotent (l : List Entry) (h1 : dedupeEntries l = l) (h2 : l.length ≤ 400)
    (h3 : l.Pairwise (fun a b : Entry => strLe b.date a.date = true)) : finalizeEntries l = l := by
  have hs : l.mergeSort dateDescLe = l :=
    List.mergeSort_of_sorted (h3.imp (fun h => h))
  simp only [finalizeEntries]
  rw [h1, hs, if_neg (by omega)]

def sampleEntryA : Entry :=
  { date := "2024-03-05", season := "2023-24", opponent := "BOS", homeAway := "HOME",
    result := "W 120-110", playoffs := false, player := "A Guy",
    stat_line := "46 pts, 5 reb, 4 ast", category := "RANDOM_EXPLOSION", trauma := false,
    trauma_level := none, why := "A Guy went for 46. Full orbital launch.", image := "" }

def sampleEntryB : Entry :=
  { date := "2024-01-09", season := "2023-24", opponent := "NY", homeAway := "AWAY",
    result := "L 98-100", playoffs := false, player := "Team Event",
    stat_line := "98 pts, opp 100 pts", category := "TRAUMA", trauma := true,
    trauma_level := some "HIGH", why := "Blew a 21-point lead.", image := "" }

theorem finalizeIdempotentWitness :
    finalizeEntries [sampleEntryA, sampleEntryB] = [sampleEntryA, sampleEntryB] :=
  finalizeIdempotent [sampleEntryA, sampleEntryB] (by decide) (by decide) (by decide)

/-! ## C3: the trauma classifier -/

/-- C3: trauma entries are emitted only for losses, at most one per game, and
the emitted rationale is the first matching reason in priority order; in
particular a playoff loss whose status detail contains "GAME 7" (and which is
not a series elimination, the one higher-priority reason) yields exactly the
Game 7 entry even when lower-priority reasons also match. -/
theorem detectTraumaSpec :
    (∀ summary context, context.won = true → detectTrauma summary context = []) ∧
    (∀ summary context, (detectTrauma summary context).length ≤ 1) ∧
    (∀ summary context, context.won = false → eliminationCond context = false →
      context.playoffs = true → strContains (statusDetailUpper context) "GAME 7" = true →
      detectTrauma summary context = [traumaify (traumaBase summary context) game7Msg]) := by
  refine ⟨?_, ?_, ?_⟩
  · intro s c h
    simp [detectTrauma, h]
  · intro s c
    by_cases h : c.won
    · simp [detectTrauma, h]
    · simp only [detectTrauma, h, Bool.false_eq_true, if_false]
      cases traumaReasons s c <;> simp
  · intro s c hw helim hpo hg7
    have hg : game7Cond c = true := by simp [game7Cond, hpo, hg7]
    simp [detectTrauma, hw, traumaReasons, helim, hg]

def g7PacersComp : Competitor :=
  { team := { id := "11", abbreviation := "IND" }, score := 98, winner := false, homeAway := "home" }

def g7OppComp : Competitor :=
  { team := { id := "18", abbreviation := "NY" }, score := 100, winner := true, homeAway := "away" }

def g7Competition : Competition :=
  { competitors := [g7PacersComp, g7OppComp]
    date := "2024-05-19T00:00Z"
    status := { type := { detail := "Final GAME 7" } } }

def g7Summary : Summary :=
  { header := { competitions := [g7Competition], season := { type := 3 } }
    winprobability := [{ homeWinPercentage := 1, homeScore := 50, awayScore := 20 }] }

def g7Context : Context :=
  { competition := g7Competition, pacersComp := g7PacersComp, oppComp := g7OppComp
    pacersScore := 98, oppScore := 100, won := false, homeAway := "HOME", opponent := "NY"
    result := "L 98-100", playoffs := true }

theorem detectTraumaSpecWitness :
    detectTrauma g7Summary g7Context = [traumaify (traumaBase g7Summary g7Context) game7Msg] :=
  detectTraumaSpec.2.2 g7Summary g7Context (by decide) (by decide) (by decide) (by decide)

/-! ## C6: winning while shooting badly -/

theorem str_append_ne_empty (a b : String) (hb : 0 < b.length) : a ++ b ≠ "" := by
  intro h
  have h1 := congrArg String.length h
  rw [String.length_append] at h1
  have h0 : ("" : String).length = 0 := rfl
  omega

def c6PacersComp : Competitor :=
  { team := { id := "11", abbreviation := "IND" }, score := 80, winner := true, homeAway := "home" }

def c6OppComp : Competitor :=
  { team := { id := "2", abbreviation := "BOS" }, score := 75, winner := false, homeAway := "away" }

def c6Competition : Competition :=
  { competitors := [c6PacersComp, c6OppComp], date := "2023-11-01T00:00Z" }

def c6Summary : Summary := { header := { competitions := [c6Competition] } }

def c6Context : Context :=
  { competition := c6Competition, pacersComp := c6PacersComp, oppComp := c6OppComp
    pacersScore := 80, oppScore := 75, won := true, homeAway := "HOME", opponent := "BOS"
    result := "W 80-75", playoffs := false }

/-- C6 refuted as stated: in this won game the boxscore carries no field-goal
stat, so the parsed percentage is `0`, which is below 35, yet the classifier
emits nothing — the code additionally requires a strictly positive
percentage. -/
theorem badShootingWinCounterexample :
    collectPacersTeamContext c6Summary = some c6Context ∧
    c6Context.won = true ∧
    (parseTeamStats c6Summary c6Context).fgPct < 35 ∧
    detectTeamWeirdness c6Summary c6Context = [] := by
  decide

/-- C6 amended: a won game with parsed field-goal percentage strictly between
0 and 35 yields a TEAM_WEIRDNESS entry with the "won while shooting badly"
rationale. -/
theorem badShootingWin (summary : Summary) (context : Context)
    (hw : context.won = true) (h0 : 0 < (parseTeamStats summary context).fgPct)
    (h35 : (parseTeamStats summary context).fgPct < 35) :
    ∃ e ∈ detectTeamWeirdness summary context,
      e.category = "TEAM_WEIRDNESS" ∧
      e.why = wonShootingBadlyWhy (parseTeamStats summary context).fgPct := by
  have hwon : (parseTeamStats summary context).won = true := hw
  simp only [detectTeamWeirdness]
  rw [if_pos ⟨hwon, h0, h35⟩]
  exact ⟨_, List.mem_append_left _ (List.mem_append_left _ (List.mem_append_left _
    (List.mem_append_left _ (List.mem_singleton_self _)))), rfl, rfl⟩

def c6bTeamRow : TeamRow :=
  { team := { id := "11" }, statistics := [{ name := "Field Goal Pct", displayValue := "31.4" }] }

def c6bSummary : Summary :=
  { header := { competitions := [c6Competition] }, boxscore := { teams := [c6bTeamRow] } }

theorem badShootingWinWitness :
    ∃ e ∈ detectTeamWeirdness c6bSummary c6Context,
      e.category = "TEAM_WEIRDNESS" ∧
      e.why = wonShootingBadlyWhy (parseTeamStats c6bSummary c6Context).fgPct :=
  badShootingWin c6bSummary c6Context (by decide) (by decide) (by decide)

/-! ## C5: the "efficient eruption" explosion rule -/

def c5Row : AthleteRow :=
  { athlete := { displayName := "Short Shift", id := "8" }, stats := ["27"], starter := some true }

def c5Labels : List String := ["PTS"]

def c5PlayerBlock : PlayerBlock :=
  { team := { id := "11" }, statistics := [{ labels := c5Labels, athletes := [c5Row] }] }

def c5GameSummary : Summary :=
  { header := { competitions := [c6Competition] }
    boxscore := { players := [c5PlayerBlock] } }

/-- C5 refuted as stated: this starter scores 27 (≥ 25) with no recorded
minutes, so the parsed minutes figure is 0, which is under 25, and no
higher-priority explosion rule matches — yet the classifier emits nothing,
because the code additionally requires strictly positive minutes. -/
theorem efficientEruptionCounterexample :
    rowPoints c5Labels c5Row = 27 ∧
    rowMinutes c5Labels c5Row = 0 ∧
    rowIsBench c5Row = false ∧
    rowPoints c5Labels c5Row < 45 ∧
    ¬ (35 ≤ rowPoints c5Labels c5Row ∧
        preAvgOf (emptyStore (rowKey "2023-24" c5Row)) < 12 ∧
        8 ≤ (emptyStore (rowKey "2023-24" c5Row)).games) ∧
    (detectPlayerMoments c5GameSummary c6Context emptyStore "2023-24").1 = [] := by
  decide

/-- C5 amended: an athlete scoring at least 25 points in *more than zero and*
under 25 parsed minutes who matches none of the three higher-priority
explosion rules yields a RANDOM_EXPLOSION entry with the "scored … in …
minutes" (efficient eruption) rationale. -/
theorem efficientEruption (summary : Summary) (context : Context) (seasonKey : String)
    (labels : List String) (st : Store) (row : AthleteRow)
    (hb : ¬ (rowIsBench row = true ∧ 30 ≤ rowPoints labels row))
    (h45 : rowPoints labels row < 45)
    (h35 : ¬ (35 ≤ rowPoints labels row ∧ preAvgOf (st (rowKey seasonKey row)) < 12 ∧
      8 ≤ (st (rowKey seasonKey row)).games))
    (hp : 25 ≤ rowPoints labels row) (hm0 : 0 < rowMinutes labels row)
    (hm : rowMinutes labels row < 25) :
    ∃ e ∈ rowEntriesWith summary context seasonKey labels st row,
      e.category = "RANDOM_EXPLOSION" ∧
      e.why = rowName row ++ " scored " ++ ratToStr (rowPoints labels row) ++ " in " ++
        toFixed1 (rowMinutes labels row) ++ " minutes." := by
  have hwhy : explosionWhy (rowName row) (rowIsBench row) (rowPoints labels row)
      (preAvgOf (st (rowKey seasonKey row))) (st (rowKey seasonKey row)).games
      (rowMinutes labels row) =
      rowName row ++ " scored " ++ ratToStr (rowPoints labels row) ++ " in " ++
        toFixed1 (rowMinutes labels row) ++ " minutes." := by
    unfold explosionWhy
    rw [if_neg hb, if_neg (not_le.mpr h45), if_neg h35, if_pos ⟨hp, hm0, hm⟩]
  have hne : rowName row ++ " scored " ++ ratToStr (rowPoints labels row) ++ " in " ++
      toFixed1 (rowMinutes labels row) ++ " minutes." ≠ "" :=
    str_append_ne_empty _ " minutes." (by decide)
  simp only [rowEntriesWith]
  rw [hwhy, if_pos hne]
  exact ⟨_, List.mem_append_left _ (List.mem_singleton_self _), rfl, rfl⟩

def c5bRow : AthleteRow :=
  { athlete := { displayName := "Fast Guy", id := "9" }, stats := ["20", "27"], starter := some true }

def c5bLabels : List String := ["MIN", "PTS"]

theorem efficientEruptionWitness :
    ∃ e ∈ rowEntriesWith c6Summary c6Context "2023-24" c5bLabels emptyStore c5bRow,
      e.category = "RANDOM_EXPLOSION" ∧
      e.why = rowName c5bRow ++ " scored " ++ ratToStr (rowPoints c5bLabels c5bRow) ++ " in " ++
        toFixed1 (rowMinutes c5bLabels c5bRow) ++ " minutes." :=
  efficientEruption c6Summary c6Context "2023-24" c5bLabels emptyStore c5bRow
    (by decide) (by decide) (by decide) (by decide) (by decide) (by decide)

/-! ## C10: trauma dominates the quality cut -/

theorem nonTraumaScore_le (e : Entry) (he : e.trauma = false) : entryQualityScore e ≤ 85 := by
  unfold entryQualityScore
  rw [if_neg (by simp [he])]
  have h1 : min (entryPoints e) 60 ≤ 60 := min_le_right _ _
  split_ifs <;> linarith

theorem traumaScore_ge (t : Entry) (ht : t.trauma = true) (hp : 0 ≤ entryPoints t) :
    100 ≤ entryQualityScore t := by
  unfold entryQualityScore
  rw [if_pos ht]
  have h1 : (0 : ℚ) ≤ min (entryPoints t) 60 := le_min hp (by norm_num)
  split_ifs <;> linarith

theorem qualityLe_trans (a b c : Entry) (hab : qualityLe a b) (hbc : qualityLe b c) :
    qualityLe a c := by
  simp only [qualityLe, decide_eq_true_eq] at *
  rcases hab with h1 | ⟨h1, hd1⟩ <;> rcases hbc with h2 | ⟨h2, hd2⟩
  · left; linarith
  · left; rw [← h2]; exact h1
  · left; rw [h1]; exact h2
  · right; exact ⟨h1.trans h2, charListLe_trans _ _ _ hd2 hd1⟩

theorem qualityLe_total (a b : Entry) : qualityLe a b || qualityLe b a := by
  simp only [qualityLe, Bool.or_eq_true, decide_eq_true_eq]
  rcases lt_trichotomy (entryQualityScore a) (entryQualityScore b) with h | h | h
  · right; left; exact h
  · have htot := charListLe_total a.date.toList b.date.toList
    rw [Bool.or_eq_true] at htot
    rcases htot with hs | hs
    · right; right; exact ⟨h.symm, hs⟩
    · left; right; exact ⟨h, hs⟩
  · left; left; exact h

theorem mem_of_mem_dedupeAux : ∀ (seen : List String) (l : List Entry) (x : Entry),
    x ∈ dedupeAux seen l → x ∈ l := by
  intro seen l
  induction l generalizing seen with
  | nil => intro x h; exact absurd h (List.not_mem_nil x)
  | cons e rest ih =>
    intro x h
    unfold dedupeAux at h
    by_cases hc : seen.contains (entryKey e) = true
    · rw [if_pos hc] at h
      exact List.mem_cons_of_mem _ (ih _ x h)
    · rw [if_neg hc] at h
      rcases List.mem_cons.mp h with h | h
      · exact h ▸ List.mem_cons_self _ _
      · exact List.mem_cons_of_mem _ (ih _ x h)

theorem key_not_seen_of_mem_dedupeAux : ∀ (seen : List String) (l : List Entry) (x : Entry),
    x ∈ dedupeAux seen l → entryKey x ∉ seen := by
  intro seen l
  induction l generalizing seen with
  | nil => intro x h; exact absurd h (List.not_mem_nil x)
  | cons e rest ih =>
    intro x h
    unfold dedupeAux at h
    by_cases hc : seen.contains (entryKey e) = true
    · rw [if_pos hc] at h
      exact ih _ x h
    · rw [if_neg hc] at h
      rcases List.mem_cons.mp h with h | h
      · subst h
        intro hmem
        exact hc (List.elem_iff.mpr hmem)
      · intro hmem
        exact ih _ x h (List.mem_cons_of_mem _ hmem)

theorem dedupeAux_pairwise_keys : ∀ (seen : List String) (l : List Entry),
    (dedupeAux seen l).Pairwise (fun a b => entryKey a ≠ entryKey b) := by
  intro seen l
  induction l generalizing seen with
  | nil => exact List.Pairwise.nil
  | cons e rest ih =>
    unfold dedupeAux
    by_cases hc : seen.contains (entryKey e) = true
    · rw [if_pos hc]; exact ih _
    · rw [if_neg hc]
      refine List.Pairwise.cons ?_ (ih _)
      intro x hx heq
      exact key_not_seen_of_mem_dedupeAux _ _ x hx (heq ▸ List.mem_cons_self _ _)

theorem dedupeEntries_nodup (l : List Entry) : (dedupeEntries l).Nodup :=
  (dedupeAux_pairwise_keys [] l).imp (fun h he => h (congrArg entryKey he))

theorem mem_finalize_subset (l : List Entry) (x : Entry) (hx : x ∈ finalizeEntries l) : x ∈ l := by
  simp only [finalizeEntries] at hx
  split at hx
  · have h1 := List.mem_mergeSort.mp hx
    have h2 := List.mem_of_mem_take h1
    have h3 := List.mem_mergeSort.mp h2
    have h4 := List.mem_mergeSort.mp h3
    exact mem_of_mem_dedupeAux [] l x h4
  · exact mem_of_mem_dedupeAux [] l x (List.mem_mergeSort.mp hx)

theorem finalize_nodup (l : List Entry) : (finalizeEntries l).Nodup := by
  have h0 : (dedupeEntries l).Nodup := dedupeEntries_nodup l
  have h1 : ((dedupeEntries l).mergeSort dateDescLe).Nodup :=
    ((List.mergeSort_perm _ _).nodup_iff).mpr h0
  simp only [finalizeEntries]
  split
  · have h2 : (((dedupeEntries l).mergeSort dateDescLe).mergeSort qualityLe).Nodup :=
      ((List.mergeSort_perm _ _).nodup_iff).mpr h1
    have h3 := h2.sublist (List.take_sublist 400 _)
    exact ((List.mergeSort_perm _ _).nodup_iff).mpr h3
  · exact h1

/-- C10: a trauma entry whose stat line parses to nonnegative points outscores
every non-trauma entry (its quality score is at least 100, a non-trauma score
is at most 85), and therefore when the 400 cap forces quality truncation such
a trauma entry is never dropped while a non-trauma entry is retained. -/
theorem traumaQualityDominance :
    (∀ t e : Entry, t.trauma = true → e.trauma = false → 0 ≤ entryPoints t →
      entryQualityScore e < entryQualityScore t) ∧
    (∀ (l : List Entry) (t : Entry), 400 < (dedupeEntries l).length →
      t ∈ dedupeEntries l → t.trauma = true → 0 ≤ entryPoints t →
      (∃ e ∈ finalizeEntries l, e.trauma = false) → t ∈ finalizeEntries l) := by
  have hscore : ∀ t e : Entry, t.trauma = true → e.trauma = false → 0 ≤ entryPoints t →
      entryQualityScore e < entryQualityScore t := by
    intro t e ht he hp
    have h1 := nonTraumaScore_le e he
    have h2 := traumaScore_ge t ht hp
    linarith
  refine ⟨hscore, ?_⟩
  intro l t hlen htmem htrauma hpt hex
  obtain ⟨e, hemem, hetrauma⟩ := hex
  have hlen' : 400 < ((dedupeEntries l).mergeSort dateDescLe).length := by
    rw [List.length_mergeSort]; exact hlen
  have hfin : finalizeEntries l =
      ((((dedupeEntries l).mergeSort dateDescLe).mergeSort qualityLe).take 400).mergeSort
        dateDescLe := by
    simp only [finalizeEntries]
    rw [if_pos hlen']
  have hmemiff : ∀ x : Entry, x ∈ finalizeEntries l ↔
      x ∈ (((dedupeEntries l).mergeSort dateDescLe).mergeSort qualityLe).take 400 := by
    intro x
    rw [hfin]
    exact List.mem_mergeSort
  set q := ((dedupeEntries l).mergeSort dateDescLe).mergeSort qualityLe with hq
  have hetake : e ∈ q.take 400 := (hmemiff e).mp hemem
  have htq : t ∈ q := List.mem_mergeSort.mpr (List.mem_mergeSort.mpr htmem)
  by_cases httake : t ∈ q.take 400
  · exact (hmemiff t).mpr httake
  · exfalso
    have hqsplit : t ∈ q.take 400 ++ q.drop 400 := by
      rw [List.take_append_drop]; exact htq
    rcases List.mem_append.mp hqsplit with h | h
    · exact httake h
    have hpw : q.Pairwise (fun a b => qualityLe a b = true) :=
      List.sorted_mergeSort qualityLe_trans qualityLe_total _
    have hpw2 : (q.take 400 ++ q.drop 400).Pairwise (fun a b => qualityLe a b = true) := by
      rw [List.take_append_drop]; exact hpw
    have hle : qualityLe e t = true := ((List.pairwise_append.mp hpw2).2.2) e hetake t h
    simp only [qualityLe, decide_eq_true_eq] at hle
    have h1 := nonTraumaScore_le e hetrauma
    have h2 := traumaScore_ge t htrauma hpt
    rcases hle with hlt | ⟨heq, -⟩ <;> linarith

theorem dedupeAux_eq_self : ∀ (seen : List String) (l : List Entry),
    (∀ x ∈ l, entryKey x ∉ seen) → (l.map entryKey).Nodup → dedupeAux seen l = l := by
  intro seen l
  induction l generalizing seen with
  | nil => intro _ _; rfl
  | cons e rest ih =>
    intro hdisj hnd
    simp only [List.map_cons, List.nodup_cons, List.mem_map] at hnd
    obtain ⟨hout, hnd'⟩ := hnd
    unfold dedupeAux
    rw [if_neg (fun h => hdisj e (List.mem_cons_self _ _) (List.elem_iff.mp h))]
    rw [ih (entryKey e :: seen) ?_ (by simpa using hnd')]
    intro x hx hmem
    rcases List.mem_cons.mp hmem with h | h
    · exact hout ⟨x, hx, h⟩
    · exact hdisj x (List.mem_cons_of_mem _ hx) h

theorem dedupe_eq_self_of_nodup_keys (l : List Entry) (h : (l.map entryKey).Nodup) :
    dedupeEntries l = l :=
  dedupeAux_eq_self [] l (fun _ _ hmem => absurd hmem (List.not_mem_nil _)) h

def mkCapEntry (i : ℕ) : Entry :=
  { date := String.mk (List.replicate (i + 500) 'a'), season := "", opponent := "",
    homeAway := "", result := "", playoffs := false, player := "", stat_line := "10 pts",
    category := "", trauma := false, trauma_level := none, why := "", image := "" }

def capTrauma : Entry :=
  { date := "T", season := "", opponent := "", homeAway := "", result := "",
    playoffs := false, player := "", stat_line := "30 pts", category := "TRAUMA", trauma := true,
    trauma_level := some "HIGH", why := "gone wrong", image := "" }

def capList : List Entry := capTrauma :: (List.range 401).map mkCapEntry

theorem length_mk_string (l : List Char) : (String.mk l).length = l.length := rfl

theorem mkCapEntry_key_len (i : ℕ) : (entryKey (mkCapEntry i)).length = i + 504 := by
  simp only [entryKey, mkCapEntry, String.length_append, length_mk_string,
    List.length_replicate]
  have hbar : ("|" : String).length = 1 := rfl
  have hemp : ("" : String).length = 0 := rfl
  simp only [hbar, hemp]

theorem capList_keys_nodup : (capList.map entryKey).Nodup := by
  simp only [capList, List.map_cons, List.map_map]
  refine List.nodup_cons.mpr ⟨?_, ?_⟩
  · intro hmem
    obtain ⟨i, -, heq⟩ := List.mem_map.mp hmem
    have hlen := congrArg String.length heq
    rw [Function.comp_apply, mkCapEntry_key_len] at hlen
    have h21 : (entryKey capTrauma).length = 21 := by decide
    omega
  · refine (List.nodup_range 401).map ?_
    intro i j h
    have hlen := congrArg String.length h
    rw [Function.comp_apply, Function.comp_apply, mkCapEntry_key_len, mkCapEntry_key_len] at hlen
    omega

theorem capList_dedupe_eq : dedupeEntries capList = capList :=
  dedupe_eq_self_of_nodup_keys capList capList_keys_nodup

theorem capList_dedupe_long : 400 < (dedupeEntries capList).length := by
  rw [capList_dedupe_eq]
  simp [capList]

theorem capList_finalize_len : (finalizeEntries capList).length = 400 := by
  have hlen : 400 < ((dedupeEntries capList).mergeSort dateDescLe).length := by
    rw [List.length_mergeSort]; exact capList_dedupe_long
  simp only [finalizeEntries]
  rw [if_pos hlen, List.length_mergeSort, List.length_take, List.length_mergeSort]
  omega

theorem capList_trauma_unique : ∀ e ∈ capList, e.trauma = true → e = capTrauma := by
  intro e he ht
  rcases List.mem_cons.mp he with h | h
  · exact h
  · exfalso
    obtain ⟨i, -, rfl⟩ := List.mem_map.mp h
    simp [mkCapEntry] at ht

theorem capList_finalize_has_nontrauma : ∃ e ∈ finalizeEntries capList, e.trauma = false := by
  by_contra hcon
  push_neg at hcon
  have hall : ∀ e ∈ finalizeEntries capList, e = capTrauma := by
    intro e he
    refine capList_trauma_unique e (mem_finalize_subset _ _ he) ?_
    cases hb : e.trauma
    · exact absurd hb (hcon e he)
    · rfl
  have hlen := capList_finalize_len
  have hnd := finalize_nodup capList
  rcases hf : finalizeEntries capList with _ | ⟨a, tail⟩
  · rw [hf] at hlen
    simp at hlen
  · rcases tail with _ | ⟨b, rest⟩
    · rw [hf] at hlen
      simp at hlen
    · have ha : a = capTrauma := hall a (by rw [hf]; simp)
      have hb : b = capTrauma := hall b (by rw [hf]; simp)
      rw [hf] at hnd
      rcases List.nodup_cons.mp hnd with ⟨hna, -⟩
      exact hna (by rw [ha, hb]; simp)

theorem traumaQualityDominanceWitness :
    entryQualityScore (mkCapEntry 0) < entryQualityScore capTrauma ∧
    capTrauma ∈ finalizeEntries capList := by
  refine ⟨traumaQualityDominance.1 capTrauma (mkCapEntry 0) rfl rfl (by decide), ?_⟩
  have hmem : capTrauma ∈ dedupeEntries capList := by
    rw [capList_dedupe_eq]
    exact List.mem_cons_self _ _
  exact traumaQualityDominance.2 capList capTrauma capList_dedupe_long hmem rfl (by decide)
    capList_finalize_has_nontrauma

/-! ## C1: the running-average store invariant -/

/-- The (store key, parsed points) contribution of every athlete row of a
processed game, in boxscore order; empty when the game is skipped. -/
def gameContribs (summary : Summary) : List (String × ℚ) :=
  match collectPacersTeamContext summary with
  | none => []
  | some context =>
    if gameDateSkips (strTake context.competition.date 10) then []
    else
      let seasonKey := seasonLabelFromDate context.competition.date
      (pacersAthleteRows summary).map
        (fun row => (rowKey seasonKey row, rowPoints (pacersLabels summary) row))

/-- Number of athlete rows keyed `k` over a processed game sequence. -/
def contribCount (k : String) (games : List Summary) : ℕ :=
  (((games.map gameContribs).flatten).filter (fun p => p.1 = k)).length

/-- Point total of athlete rows keyed `k` over a processed game sequence. -/
def contribSum (k : String) (games : List Summary) : ℚ :=
  ((((games.map gameContribs).flatten).filter (fun p => p.1 = k)).map Prod.snd).sum

theorem foldl_athleteStep_store (summary : Summary) (context : Context) (seasonKey : String)
    (labels : List String) :
    ∀ (rows : List AthleteRow) (acc : List Entry × Store) (k : String),
      (rows.foldl (athleteStep summary context seasonKey labels) acc).2 k =
        ⟨(acc.2 k).games + (rows.filter (fun r => rowKey seasonKey r = k)).length,
         (acc.2 k).points +
           ((rows.filter (fun r => rowKey seasonKey r = k)).map (rowPoints labels)).sum⟩ := by
  intro rows
  induction rows with
  | nil => intro acc k; simp
  | cons r rest ih =>
    intro acc k
    rw [List.foldl_cons, ih]
    have hstep : (athleteStep summary context seasonKey labels acc r).2 k =
        if k = rowKey seasonKey r then
          ⟨(acc.2 (rowKey seasonKey r)).games + 1,
           (acc.2 (rowKey seasonKey r)).points + rowPoints labels r⟩
        else acc.2 k := rfl
    rw [hstep]
    by_cases hk : k = rowKey seasonKey r
    · subst hk
      rw [if_pos rfl]
      have hfil : (r :: rest).filter (fun r2 => rowKey seasonKey r2 = rowKey seasonKey r) =
          r :: rest.filter (fun r2 => rowKey seasonKey r2 = rowKey seasonKey r) := by
        simp [List.filter_cons]
      rw [hfil]
      simp only [List.length_cons, List.map_cons, List.sum_cons, AvgRec.mk.injEq]
      exact ⟨by omega, by ring⟩
    · rw [if_neg hk]
      have hne : ¬ (rowKey seasonKey r = k) := fun h => hk h.symm
      simp [List.filter_cons, hne]

theorem processGame_store (store : Store) (summary : Summary) (k : String) :
    (processGame store summary).2 k =
      ⟨(store k).games + ((gameContribs summary).filter (fun p => p.1 = k)).length,
       (store k).points +
         (((gameContribs summary).filter (fun p => p.1 = k)).map Prod.snd).sum⟩ := by
  cases hc : collectPacersTeamContext summary with
  | none => simp [processGame, gameContribs, hc]
  | some context =>
    by_cases hskip : gameDateSkips (strTake context.competition.date 10) = true
    · simp [processGame, gameContribs, hc, hskip]
    · simp only [processGame, gameContribs, hc, hskip, Bool.false_eq_true, if_false,
        if_neg hskip]
      cases hb : pacersPlayerBlock summary with
      | none =>
        simp [detectPlayerMoments, pacersAthleteRows, hb]
      | some blk =>
        have hrows : pacersAthleteRows summary = (blk.statistics.headD {}).athletes := by
          simp [pacersAthleteRows, hb]
        have hlabels : pacersLabels summary = ((blk.statistics.headD {}).labels).map jsToUpper := by
          simp [pacersLabels, hb]
        simp only [detectPlayerMoments, hb, hrows, hlabels]
        rw [foldl_athleteStep_store summary context (seasonLabelFromDate context.competition.date)
          (((blk.statistics.headD {}).labels).map jsToUpper) ((blk.statistics.headD {}).athletes)
          ([], store) k]
        rw [List.filter_map, List.length_map, List.map_map]
        rfl

theorem foldl_processGame_store :
    ∀ (games : List Summary) (acc : List Entry × Store) (k : String),
      (games.foldl (fun acc summary =>
        ((acc.1 ++ (processGame acc.2 summary).1, (processGame acc.2 summary).2) :
          List Entry × Store)) acc).2 k =
        ⟨(acc.2 k).games + contribCount k games, (acc.2 k).points + contribSum k games⟩ := by
  intro games
  induction games with
  | nil => intro acc k; simp [contribCount, contribSum]
  | cons g rest ih =>
    intro acc k
    rw [List.foldl_cons, ih]
    rw [processGame_store acc.2 g k]
    simp only [contribCount, contribSum, List.map_cons, List.flatten_cons, List.filter_append,
      List.length_append, List.map_append, List.sum_append, AvgRec.mk.injEq]
    exact ⟨by omega, by ring⟩

theorem updateStore_ne (st : Store) (k : String) (v : AvgRec) (k2 : String) (h : k2 ≠ k) :
    updateStore st k v k2 = st k2 := if_neg h

theorem rowEntriesWith_store_congr (summary : Summary) (context : Context) (seasonKey : String)
    (labels : List String) (st st2 : Store) (row : AthleteRow)
    (h : st (rowKey seasonKey row) = st2 (rowKey seasonKey row)) :
    rowEntriesWith summary context seasonKey labels st row =
      rowEntriesWith summary context seasonKey labels st2 row := by
  simp only [rowEntriesWith, h]

theorem foldl_athleteStep_entries (summary : Summary) (context : Context) (seasonKey : String)
    (labels : List String) :
    ∀ (rows : List AthleteRow) (es : List Entry) (st : Store),
      (rows.map (rowKey seasonKey)).Nodup →
      (rows.foldl (athleteStep summary context seasonKey labels) (es, st)).1 =
        es ++ (rows.map (rowEntriesWith summary context seasonKey labels st)).flatten := by
  intro rows
  induction rows with
  | nil => intro es st _; simp
  | cons r rest ih =>
    intro es st hnd
    simp only [List.map_cons, List.nodup_cons, List.mem_map] at hnd
    obtain ⟨hout, hnd'⟩ := hnd
    rw [List.foldl_cons]
    have hstep : athleteStep summary context seasonKey labels (es, st) r =
        (es ++ rowEntriesWith summary context seasonKey labels st r,
         updateStore st (rowKey seasonKey r)
           ⟨(st (rowKey seasonKey r)).games + 1,
            (st (rowKey seasonKey r)).points + rowPoints labels r⟩) := rfl
    rw [hstep, ih _ _ (by simpa using hnd')]
    have hcongr : rest.map (rowEntriesWith summary context seasonKey labels
        (updateStore st (rowKey seasonKey r)
          ⟨(st (rowKey seasonKey r)).games + 1,
           (st (rowKey seasonKey r)).points + rowPoints labels r⟩)) =
        rest.map (rowEntriesWith summary context seasonKey labels st) := by
      refine List.map_congr_left ?_
      intro x hx
      refine rowEntriesWith_store_congr _ _ _ _ _ _ _ ?_
      refine updateStore_ne _ _ _ _ ?_
      intro heq
      exact hout ⟨x, hx, heq⟩
    rw [hcongr]
    simp [List.append_assoc]

/-- C1: (a) after any prefix of the chronological game sequence, the
running-average store at any key holds exactly the count and point total of
that key's athlete rows over the processed games of the prefix; (b) within one
game, when the boxscore's athlete keys are distinct, every athlete's entries
are computed from the store as it stood *before* the game — the pre-game
average read precedes every `recordGame`-style update of that game. -/
theorem runningAverageStoreSpec :
    (∀ (games : List Summary) (k : String),
      (runCollect games).2 k = ⟨contribCount k games, contribSum k games⟩) ∧
    (∀ (summary : Summary) (context : Context) (store : Store) (seasonKey : String),
      ((pacersAthleteRows summary).map (rowKey seasonKey)).Nodup →
      (detectPlayerMoments summary context store seasonKey).1 =
        ((pacersAthleteRows summary).map
          (rowEntriesWith summary context seasonKey (pacersLabels summary) store)).flatten) := by
  constructor
  · intro games k
    have h := foldl_processGame_store games ([], emptyStore) k
    simpa [runCollect, emptyStore] using h
  · intro summary context store seasonKey hnd
    cases hb : pacersPlayerBlock summary with
    | none => simp [detectPlayerMoments, pacersAthleteRows, hb]
    | some blk =>
      have hrows : pacersAthleteRows summary = (blk.statistics.headD {}).athletes := by
        simp [pacersAthleteRows, hb]
      have hlabels : pacersLabels summary = ((blk.statistics.headD {}).labels).map jsToUpper := by
        simp [pacersLabels, hb]
      rw [hrows] at hnd
      simp only [detectPlayerMoments, hb, hrows, hlabels]
      rw [foldl_athleteStep_entries summary context seasonKey
        (((blk.statistics.headD {}).labels).map jsToUpper) _ [] store hnd]
      rfl

def c1RowA : AthleteRow :=
  { athlete := { displayName := "A Guy", id := "7" }, stats := ["20", "27"], starter := some true }

def c1RowB : AthleteRow :=
  { athlete := { displayName := "B Guy", id := "8" }, stats := ["12", "5"], starter := some false }

def c1Block : PlayerBlock :=
  { team := { id := "11" }
    statistics := [{ labels := ["MIN", "PTS"], athletes := [c1RowA, c1RowB] }] }

def c1Summary : Summary :=
  { header := { competitions := [c6Competition] }, boxscore := { players := [c1Block] } }

theorem runningAverageStoreSpecWitness :
    (runCollect [c1Summary]).2 (avgKey "2023-24" "A Guy") = ⟨1, 27⟩ ∧
    (detectPlayerMoments c1Summary c6Context emptyStore "2023-24").1 =
      ((pacersAthleteRows c1Summary).map
        (rowEntriesWith c1Summary c6Context "2023-24" (pacersLabels c1Summary) emptyStore)).flatten := by
  constructor
  · rw [runningAverageStoreSpec.1 [c1Summary] (avgKey "2023-24" "A Guy")]
    decide
  · exact runningAverageStoreSpec.2 c1Summary c6Context emptyStore "2023-24" (by decide)

/-! ## C9: field-shape invariant of the corpus -/

/-- The trauma flag is set exactly on TRAUMA-category entries, and the
severity field is present exactly when the flag is set. -/
def entryShapeOK (e : Entry) : Prop :=
  (e.trauma = true ↔ e.category = "TRAUMA") ∧ (e.trauma_level.isSome = true ↔ e.trauma = true)

theorem createBaseEntry_shape (context : Context) (summary : Summary) (player : PlayerRef)
    (statLine category why : String) (h : category ≠ "TRAUMA") :
    entryShapeOK (createBaseEntry context summary player statLine category why) := by
  unfold entryShapeOK createBaseEntry
  constructor
  · simp [h]
  · simp

theorem traumaify_shape (e : Entry) (why : String) : entryShapeOK (traumaify e why) := by
  unfold entryShapeOK traumaify
  simp

theorem mem_ite_singleton {α : Type} {c : Prop} [Decidable c] {x y : α}
    (h : x ∈ (if c then [y] else [])) : x = y := by
  split at h
  · exact List.mem_singleton.mp h
  · exact absurd h (List.not_mem_nil x)

theorem rowEntriesWith_shape (summary : Summary) (context : Context) (seasonKey : String)
    (labels : List String) (st : Store) (row : AthleteRow) (e : Entry)
    (he : e ∈ rowEntriesWith summary context seasonKey labels st row) : entryShapeOK e := by
  simp only [rowEntriesWith] at he
  rcases List.mem_append.mp he with h | h
  · rw [mem_ite_singleton h]
    exact createBaseEntry_shape _ _ _ _ _ _ (by decide)
  · rw [mem_ite_singleton h]
    exact createBaseEntry_shape _ _ _ _ _ _ (by decide)

theorem foldl_athleteStep_shape (summary : Summary) (context : Context) (seasonKey : String)
    (labels : List String) :
    ∀ (rows : List AthleteRow) (acc : List Entry × Store),
      (∀ e ∈ acc.1, entryShapeOK e) →
      ∀ e ∈ (rows.foldl (athleteStep summary context seasonKey labels) acc).1, entryShapeOK e := by
  intro rows
  induction rows with
  | nil => intro acc hacc e he; exact hacc e he
  | cons r rest ih =>
    intro acc hacc e he
    rw [List.foldl_cons] at he
    refine ih _ ?_ e he
    intro x hx
    rcases List.mem_append.mp hx with h | h
    · exact hacc x h
    · exact rowEntriesWith_shape _ _ _ _ _ _ x h

theorem detectPlayerMoments_shape (summary : Summary) (context : Context) (store : Store)
    (seasonKey : String) (e : Entry)
    (he : e ∈ (detectPlayerMoments summary context store seasonKey).1) : entryShapeOK e := by
  unfold detectPlayerMoments at he
  cases hb : pacersPlayerBlock summary with
  | none => rw [hb] at he; exact absurd he (List.not_mem_nil e)
  | some blk =>
    rw [hb] at he
    exact foldl_athleteStep_shape _ _ _ _ _ ([], store) (by intro x hx; cases hx) e he

theorem detectTeamWeirdness_shape (summary : Summary) (context : Context) (e : Entry)
    (he : e ∈ detectTeamWeirdness summary context) : entryShapeOK e := by
  simp only [detectTeamWeirdness] at he
  rcases List.mem_append.mp he with h | h5
  on_goal 2 => rw [mem_ite_singleton h5]; exact createBaseEntry_shape _ _ _ _ _ _ (by decide)
  rcases List.mem_append.mp h with h | h4
  on_goal 2 => rw [mem_ite_singleton h4]; exact createBaseEntry_shape _ _ _ _ _ _ (by decide)
  rcases List.mem_append.mp h with h | h3
  on_goal 2 => rw [mem_ite_singleton h3]; exact createBaseEntry_shape _ _ _ _ _ _ (by decide)
  rcases List.mem_append.mp h with h | h2
  on_goal 2 => rw [mem_ite_singleton h2]; exact createBaseEntry_shape _ _ _ _ _ _ (by decide)
  rw [mem_ite_singleton h]
  exact createBaseEntry_shape _ _ _ _ _ _ (by decide)

theorem detectTrauma_shape (summary : Summary) (context : Context) (e : Entry)
    (he : e ∈ detectTrauma summary context) : entryShapeOK e := by
  unfold detectTrauma at he
  split at he
  · exact absurd he (List.not_mem_nil e)
  · split at he
    · exact absurd he (List.not_mem_nil e)
    · rw [List.mem_singleton.mp he]
      exact traumaify_shape _ _

theorem processGame_shape (store : Store) (summary : Summary) (e : Entry)
    (he : e ∈ (processGame store summary).1) : entryShapeOK e := by
  unfold processGame at he
  split at he
  · exact absurd he (List.not_mem_nil e)
  · next context heq =>
    dsimp only at he
    split at he
    · exact absurd he (List.not_mem_nil e)
    · rcases List.mem_append.mp he with h | h
      · rcases List.mem_append.mp h with h | h
        · exact detectPlayerMoments_shape _ _ _ _ e h
        · exact detectTeamWeirdness_shape _ _ e h
      · exact detectTrauma_shape _ _ e h

theorem runCollect_shape :
    ∀ (games : List Summary) (acc : List Entry × Store),
      (∀ e ∈ acc.1, entryShapeOK e) →
      ∀ e ∈ (games.foldl (fun acc summary =>
        ((acc.1 ++ (processGame acc.2 summary).1, (processGame acc.2 summary).2) :
          List Entry × Store)) acc).1, entryShapeOK e := by
  intro games
  induction games with
  | nil => intro acc hacc e he; exact hacc e he
  | cons g rest ih =>
    intro acc hacc e he
    rw [List.foldl_cons] at he
    refine ih _ ?_ e he
    intro x hx
    rcases List.mem_append.mp hx with h | h
    · exact hacc x h
    · exact processGame_shape _ _ x h

/-- C9: every entry of the final corpus has its trauma flag set exactly when
its category is TRAUMA, and carries a trauma severity exactly when the flag is
set (base entries are flag-false with no severity; the trauma upgrade sets
category, flag and severity together). -/
theorem corpusFieldShape (games : List Summary) (e : Entry) (he : e ∈ runPipeline games) :
    (e.trauma = true ↔ e.category = "TRAUMA") ∧
    (e.trauma_level.isSome = true ↔ e.trauma = true) := by
  have hmem : e ∈ (runCollect games).1 :=
    mem_finalize_subset ((runCollect games).1) e he
  exact runCollect_shape games ([], emptyStore) (by intro x hx; cases hx) e hmem

def c9PacersComp : Competitor :=
  { team := { id := "11", abbreviation := "IND" }, score := 100, winner := false, homeAway := "home" }

def c9OppComp : Competitor :=
  { team := { id := "4", abbreviation := "CHI" }, score := 155, winner := true, homeAway := "away" }

def c9Competition : Competition :=
  { competitors := [c9PacersComp, c9OppComp], date := "2024-02-10T00:00Z" }

def c9Summary : Summary := { header := { competitions := [c9Competition] } }

def c9Entry : Entry :=
  { date := "2024-02-10", season := "2023-24", opponent := "CHI", homeAway := "HOME",
    result := "L 100-155", playoffs := false, player := "Team Event",
    stat_line := "100 pts, opp 155 pts", category := "TEAM_WEIRDNESS", trauma := false,
    trauma_level := none, why := "Allowed 150+. Historical nonsense occurred.",
    image := "https://a.espncdn.com/i/teamlogos/nba/500/chi.png" }

theorem corpusFieldShapeWitness :
    ∃ e ∈ runPipeline [c9Summary],
      (e.trauma = true ↔ e.category = "TRAUMA") ∧
      (e.trauma_level.isSome = true ↔ e.trauma = true) := by
  have h1 : (runCollect [c9Summary]).1 = [c9Entry] := by decide
  have h2 : runPipeline [c9Summary] = [c9Entry] := by
    unfold runPipeline
    rw [h1]
    have hd : dedupeEntries [c9Entry] = [c9Entry] := by decide
    simp [finalizeEntries, hd]
  have hmem : c9Entry ∈ runPipeline [c9Summary] := by
    rw [h2]
    exact List.mem_singleton_self _
  exact ⟨c9Entry, hmem, corpusFieldShape [c9Summary] c9Entry hmem⟩
end TalkingPacers
